import Mathlib

/-!
Verification development for the unbound DNS resolver sources.

The definitions below are shallow embeddings of the C sources:
`services/cache/dns.c` (dns_cache_store_msg, copy_rrset, find_deleg_ns,
dns_cache_find_delegation, tomsg, dns_cache_lookup, store_rrsets),
`util/storage/slabhash.h`, `iterator/iterator.h`, `validator/validator.h`
and `util/configparser.c`. Parts of the repository that are referenced by
this code but whose bodies are not in the sources (lruhash.c, rrset.c,
msgreply.c, iterator.c, validator.c) are modelled from the specification;
each such definition carries a doc comment saying so.

Machine integers are modelled as Nat with explicit reduction mod 2^32
where the C code can wrap (uint32_t TTL arithmetic).
-/

/-- 2^32, the modulus of uint32_t arithmetic. -/
def UINT32_MOD : Nat := 4294967296

/-- uint32_t addition: `a + b` reduced mod 2^32. -/
def add32 (a b : Nat) : Nat := (a + b) % UINT32_MOD

/-- uint32_t subtraction: `a - b` computed mod 2^32 (wraps like C). -/
def sub32 (a b : Nat) : Nat := (a + (UINT32_MOD - b % UINT32_MOD)) % UINT32_MOD

theorem add32_eq (a b : Nat) (h : a + b < UINT32_MOD) : add32 a b = a + b := by
  unfold add32
  exact Nat.mod_eq_of_lt h

theorem sub32_eq (a b : Nat) (hba : b ≤ a) (ha : a < UINT32_MOD) :
    sub32 a b = a - b := by
  unfold sub32 UINT32_MOD at *
  omega

/-- A DNS label: a list of bytes. -/
abbrev Label := List Nat

/-- A domain name in canonical form: list of labels, leftmost label first.
The root name is the empty list. Snipping the front label of the C wire
form (`qname += lablen + 1`) is `List.tail` here. -/
abbrev Dname := List Label

/-- RR type constants from ldns used by the cache code. -/
def LDNS_RR_TYPE_NS : Nat := 2

/-- RR type CNAME. -/
def LDNS_RR_TYPE_CNAME : Nat := 5

/-- struct packed_rrset_data: counts, overall TTL, per-RR (and per-RRSIG)
TTL array, and the trust level used by the rrset cache update policy.
TTLs are absolute wall-clock seconds once stored in the cache. -/
structure PackedRrsetData where
  count : Nat
  rrsig_count : Nat
  ttl : Nat
  rr_ttl : List Nat
  trust : Nat
  deriving Repr, DecidableEq

/-- struct ub_packed_rrset_key: rrset identity (owner dname, type, class,
flags), the version id, and the packed data. -/
structure UbPackedRrsetKey where
  dname : Dname
  rtype : Nat
  rclass : Nat
  flags : Nat
  id : Nat
  data : PackedRrsetData
  deriving Repr, DecidableEq

/-- The RRset cache contents: the set of currently stored rrsets.
The slab structure of the rrset cache does not affect the lookup results
modelled here, so the contents are a list of entries. -/
abbrev RrsetCache := List UbPackedRrsetKey

/-- Modelled from the spec: `rrset_cache_lookup` (services/cache/rrset.c is
not among the sources). Returns the cached rrset for the exact
(name, type, class, flags) key when present and unexpired; the spec treats
every entry whose absolute TTL has passed as absent. -/
def rrset_cache_lookup (rc : RrsetCache) (name : Dname)
    (rtype rclass flags now : Nat) : Option UbPackedRrsetKey :=
  rc.find? (fun c => decide (c.dname = name) && decide (c.rtype = rtype) &&
    decide (c.rclass = rclass) && decide (c.flags = flags) &&
    decide (now ≤ c.data.ttl))

/-- From services/cache/dns.c `copy_rrset`: copy an rrset out of the cache
into a reply region, making every TTL relative: the C loop subtracts `now`
(uint32 arithmetic) from `rr_ttl[i]` for `i < count + rrsig_count`, and
from the overall `ttl`. The copy keeps the id, key and flags. -/
def copy_rrset (key : UbPackedRrsetKey) (now : Nat) : UbPackedRrsetKey :=
  let d := key.data
  let n := d.count + d.rrsig_count
  { key with data := { d with
      rr_ttl := ((d.rr_ttl.take n).map (fun t => sub32 t now)) ++ d.rr_ttl.drop n,
      ttl := sub32 d.ttl now } }

/-- From services/cache/dns.c `find_deleg_ns`: walk suffixes of qname from
the longest down (snipping the front label each time, root included),
returning the first cached unexpired NS rrset found. -/
def find_deleg_ns (rc : RrsetCache) (qclass now : Nat) : Dname → Option UbPackedRrsetKey
  | [] => rrset_cache_lookup rc [] LDNS_RR_TYPE_NS qclass 0 now
  | l :: rest =>
    match rrset_cache_lookup rc (l :: rest) LDNS_RR_TYPE_NS qclass 0 now with
    | some r => some r
    | none => find_deleg_ns rc qclass now rest

/-- struct delegpt as far as the cache code constructs it: the owner name
of the zone cut (delegpt_set_name with the NS rrset owner) and the NS
rrset added by delegpt_rrset_add_ns. -/
structure Delegpt where
  name : Dname
  ns_rrset : UbPackedRrsetKey
  deriving Repr, DecidableEq

/-- From services/cache/dns.c `dns_cache_find_delegation` (with msg==NULL):
find the closest enclosing cached NS rrset and build a delegation point
whose name is that rrset owner name. qtype is only used for the optional
referral message, not for the delegation point. -/
def dns_cache_find_delegation (rc : RrsetCache) (qname : Dname)
    (qtype qclass now : Nat) : Option Delegpt :=
  match find_deleg_ns rc qclass now qname with
  | none => none
  | some nskey => some ⟨nskey.dname, nskey⟩

/-- One slab: an LRU-ordered list of (key, data) entries; the head is the
most recently used entry, the tail is the eviction end. -/
structure Lruhash (K D : Type) where
  entries : List (K × D)
  deriving Repr, DecidableEq

/-- Memory used by a slab: sum of the user-supplied size function over the
entries. -/
def lru_space {K D : Type} (szf : K → D → Nat) (l : List (K × D)) : Nat :=
  (l.map (fun e => szf e.1 e.2)).sum

/-- Eviction loop body with an explicit step counter: while the slab is over
budget, drop the entry at the tail of the LRU. The counter is set to the
list length by the caller; dropping the tail each round, the space reaches
0 before the counter runs out, so the counter never cuts the loop short. -/
def evict_steps {K D : Type} (szf : K → D → Nat) (budget : Nat) :
    Nat → List (K × D) → List (K × D)
  | 0, l => l
  | Nat.succ n, l =>
    if lru_space szf l ≤ budget then l else evict_steps szf budget n l.dropLast

/-- Modelled from the spec: the lruhash eviction (util/storage/lruhash.c is
not among the sources): evict from the tail of the LRU until the slab
memory budget is respected. -/
def evict_tail {K D : Type} (szf : K → D → Nat) (budget : Nat)
    (l : List (K × D)) : List (K × D) :=
  evict_steps szf budget l.length l

/-- Modelled from the spec: `lruhash_insert` (util/storage/lruhash.c is not
among the sources). If the key exists the data is swapped in and the old
data is freed (returned in the freed list) while the write lock is held;
else a new entry becomes the most recently used and entries are evicted
from the LRU tail until the budget is respected. -/
def lruhash_insert {K D : Type} [DecidableEq K] (szf : K → D → Nat)
    (budget : Nat) (t : Lruhash K D) (k : K) (d : D) : Lruhash K D × List D :=
  match t.entries.find? (fun e => decide (e.1 = k)) with
  | some e => (⟨t.entries.map (fun x => if x.1 = k then (k, d) else x)⟩, [e.2])
  | none =>
    let l1 := (k, d) :: t.entries
    let l2 := evict_tail szf budget l1
    (⟨l2⟩, (l1.drop l2.length).map (fun e => e.2))

/-- struct slabhash from util/storage/slabhash.h: a fixed array of
independent lruhash tables; the top bits of the 32-bit hash (shift right
by `shift`) select the slab; every table gets maxmem/numtables for
itself. -/
structure Slabhash (K D : Type) where
  numtables : Nat
  shift : Nat
  maxmem : Nat
  tables : List (Lruhash K D)
  deriving Repr, DecidableEq

/-- Slab selection: shift the 32-bit hash right, keeping the top bits. -/
def slab_idx (shift hash : Nat) : Nat := (hash % UINT32_MOD) >>> shift

/-- From util/storage/slabhash.h `slabhash_create`: numtables empty tables,
each entitled to maxmem/numtables; the high bits of the hash select the
table. -/
def slabhash_create (K D : Type) (numtables maxmem : Nat) : Slabhash K D :=
  { numtables := numtables, shift := 32 - Nat.log2 numtables,
    maxmem := maxmem, tables := List.replicate numtables ⟨[]⟩ }

/-- From util/storage/slabhash.h `slabhash_insert`: dispatch to
lruhash_insert on the slab selected by the hash. Returns the new table and
the list of freed data values. -/
def slabhash_insert {K D : Type} [DecidableEq K] (szf : K → D → Nat)
    (sh : Slabhash K D) (hash : Nat) (k : K) (d : D) : Slabhash K D × List D :=
  let i := slab_idx sh.shift hash
  let t := sh.tables.getD i ⟨[]⟩
  let r := lruhash_insert szf (sh.maxmem / sh.numtables) t k d
  ({ sh with tables := sh.tables.set i r.1 }, r.2)

/-- From util/storage/slabhash.h `slabhash_lookup`: find the entry with an
equal key (compfunc equality) in the slab selected by the hash. -/
def slabhash_lookup {K D : Type} [DecidableEq K] (sh : Slabhash K D)
    (hash : Nat) (k : K) : Option (K × D) :=
  (sh.tables.getD (slab_idx sh.shift hash) ⟨[]⟩).entries.find?
    (fun e => decide (e.1 = k))

/-- struct query_info: the cache key (owner name, type, class). -/
structure QueryInfo where
  qname : Dname
  qtype : Nat
  qclass : Nat
  deriving Repr, DecidableEq

/-- struct reply_info: section counts, flags, overall absolute TTL and the
referenced rrsets. The ref array of the C struct is kept implicit: the
store code sets ref[i].key = rrsets[i] and ref[i].id = rrsets[i]->id, so
the back-references coincide with the rrsets list itself. -/
structure ReplyInfo where
  flags : Nat
  qdcount : Nat
  ttl : Nat
  an_numrrsets : Nat
  ns_numrrsets : Nat
  ar_numrrsets : Nat
  rrsets : List UbPackedRrsetKey
  deriving Repr, DecidableEq

/-- The message cache: a slabhash from query_info to reply_info. -/
abbrev MsgCache := Slabhash QueryInfo ReplyInfo

/-- struct dns_msg: a query and its reply. -/
structure DnsMsg where
  qinfo : QueryInfo
  rep : ReplyInfo
  deriving Repr, DecidableEq

/-- Modelled from the spec: `rrset_array_lock` (services/cache/rrset.c is
not among the sources). The back-reference check of a cached message:
every referenced rrset must still be present in the rrset cache with its
captured version id and be unexpired; otherwise the message is a miss. -/
def rrset_array_lock (rc : RrsetCache) (rrsets : List UbPackedRrsetKey)
    (now : Nat) : Bool :=
  rrsets.all (fun k => rc.any (fun c => decide (c.dname = k.dname) &&
    decide (c.rtype = k.rtype) && decide (c.rclass = k.rclass) &&
    decide (c.flags = k.flags) && decide (c.id = k.id) &&
    decide (now ≤ c.data.ttl)))

/-- From services/cache/dns.c `tomsg`: build a dns_msg from a message cache
entry. Returns none when `now > r->ttl` (entry expired) or when the
referenced rrsets fail the lock/version check; otherwise every rrset is
copied out with TTLs made relative by copy_rrset. -/
def tomsg (rc : RrsetCache) (q : QueryInfo) (r : ReplyInfo) (now : Nat) :
    Option DnsMsg :=
  if now > r.ttl then none
  else if rrset_array_lock rc r.rrsets now then
    some ⟨q, { r with rrsets := r.rrsets.map (fun k => copy_rrset k now) }⟩
  else none

/-- From services/cache/dns.c `dns_cache_lookup`, second block: look up the
CNAME entry for the qname and convert it. -/
def dns_cache_lookup_cname (qh : QueryInfo → Nat) (mc : MsgCache)
    (rc : RrsetCache) (qname : Dname) (qclass now : Nat) : Option DnsMsg :=
  match slabhash_lookup mc (qh ⟨qname, LDNS_RR_TYPE_CNAME, qclass⟩)
      ⟨qname, LDNS_RR_TYPE_CNAME, qclass⟩ with
  | some e => tomsg rc e.1 e.2 now
  | none => none

/-- From services/cache/dns.c `dns_cache_lookup`: look up the message cache
for (qname, qtype, qclass); if the entry is missing or tomsg fails (TTL or
rrsets unavailable), fall back to a lookup for (qname, CNAME, qclass);
return NULL only when both fail. -/
def dns_cache_lookup (qh : QueryInfo → Nat) (mc : MsgCache) (rc : RrsetCache)
    (qname : Dname) (qtype qclass now : Nat) : Option DnsMsg :=
  match slabhash_lookup mc (qh ⟨qname, qtype, qclass⟩)
      ⟨qname, qtype, qclass⟩ with
  | some e =>
    match tomsg rc e.1 e.2 now with
    | some msg => some msg
    | none => dns_cache_lookup_cname qh mc rc qname qclass now
  | none => dns_cache_lookup_cname qh mc rc qname qclass now

/-- Same rrset cache key: equal (owner, type, class, flags). -/
def same_rrset_key (a b : UbPackedRrsetKey) : Bool :=
  decide (a.dname = b.dname) && decide (a.rtype = b.rtype) &&
  decide (a.rclass = b.rclass) && decide (a.flags = b.flags)

/-- Modelled from the spec: the rrset cache dominance order. Replace only if
the new record dominates: higher trust, or equal trust with later
expiry. -/
def rrset_dominates (nw old : UbPackedRrsetKey) : Bool :=
  decide (old.data.trust < nw.data.trust) ||
  (decide (nw.data.trust = old.data.trust) && decide (old.data.ttl ≤ nw.data.ttl))

/-- Modelled from the spec: `rrset_cache_update` (services/cache/rrset.c is
not among the sources). If no entry with the key exists, insert; else
replace only on dominance (bumping the version id); else keep the existing
entry. The winning entry is also returned, because the caller must use the
returned pointer, not its input. -/
def rrset_cache_update (rc : RrsetCache) (k : UbPackedRrsetKey) :
    RrsetCache × UbPackedRrsetKey :=
  match rc.find? (fun c => same_rrset_key c k) with
  | none => (k :: rc, k)
  | some c =>
    if rrset_dominates k c then
      let k1 := { k with id := c.id + 1 }
      (rc.map (fun x => if same_rrset_key x k then k1 else x), k1)
    else (rc, c)

/-- From services/cache/dns.c `store_rrsets`: write every referenced rrset
through to the rrset cache; when an entry was already in the cache the
reply reference is redirected to the cached entry
(`rep->rrsets[i] = ref[i].key`). Returns the new cache and the redirected
rrset list. -/
def store_rrsets (rc : RrsetCache) :
    List UbPackedRrsetKey → RrsetCache × List UbPackedRrsetKey
  | [] => (rc, [])
  | r :: rest =>
    let p := rrset_cache_update rc r
    let q := store_rrsets p.1 rest
    (q.1, p.2 :: q.2)

/-- TTL conversion of one rrset to absolute time (uint32 add of now). -/
def set_ttls_rrset (now : Nat) (k : UbPackedRrsetKey) : UbPackedRrsetKey :=
  { k with data := { k.data with
      ttl := add32 k.data.ttl now,
      rr_ttl := k.data.rr_ttl.map (fun t => add32 t now) } }

/-- Modelled from the spec: `reply_info_set_ttls` (util/data/msgreply.c is
not among the sources). Stored TTLs are absolute wall-clock seconds: add
now to the overall reply TTL and to every rrset TTL, per-RR and per-RRSIG
TTL. -/
def reply_info_set_ttls (rep : ReplyInfo) (now : Nat) : ReplyInfo :=
  { rep with
    ttl := add32 rep.ttl now,
    rrsets := rep.rrsets.map (set_ttls_rrset now) }

/-- The shared cache state touched by dns_cache_store_msg. -/
structure DnsCacheState where
  msg_cache : MsgCache
  rrset_cache : RrsetCache
  deriving Repr, DecidableEq

/-- From services/cache/dns.c `dns_cache_store_msg`: capture the (relative)
reply TTL, make all TTLs absolute, write the rrsets through to the rrset
cache; if the captured TTL is 0 the message itself is not inserted (the
message cache is untouched); otherwise the reply entry is inserted in the
message cache slab selected by the hash. -/
def dns_cache_store_msg (msz : QueryInfo → ReplyInfo → Nat)
    (st : DnsCacheState) (qinfo : QueryInfo) (hash : Nat) (rep : ReplyInfo)
    (now : Nat) : DnsCacheState :=
  let ttl := rep.ttl
  let rep1 := reply_info_set_ttls rep now
  let sr := store_rrsets st.rrset_cache rep1.rrsets
  if ttl = 0 then { st with rrset_cache := sr.1 }
  else
    let rep2 := { rep1 with rrsets := sr.2 }
    { msg_cache := (slabhash_insert msz st.msg_cache hash qinfo rep2).1,
      rrset_cache := sr.1 }

/-- From iterator/iterator.h: max number of query restarts (CNAME chain). -/
def MAX_RESTART_COUNT : Nat := 8

/-- From iterator/iterator.h: max number of referrals. -/
def MAX_REFERRAL_COUNT : Nat := 30

/-- From iterator/iterator.h: number of retries on outgoing queries. -/
def OUTBOUND_MSG_RETRY : Nat := 4

/-- From iterator/iterator.h: niceness of a server without information. -/
def UNKNOWN_SERVER_NICENESS : Nat := 376

/-- DNS RCODE SERVFAIL. -/
def LDNS_RCODE_SERVFAIL : Nat := 2

/-- The budget counters of struct iter_qstate, plus the terminal error of
the query if the iterator ended it. -/
structure IterCounters where
  query_restart_count : Nat
  referral_count : Nat
  error_rcode : Option Nat
  deriving Repr, DecidableEq

/-- Counter state of a fresh query. -/
def iter_counters_init : IterCounters :=
  { query_restart_count := 0, referral_count := 0, error_rcode := none }

/-- The two response-classification events that advance the budget
counters: a positive answer through a CNAME (query restart) and a
referral. -/
inductive IterBudgetEvent where
  | restart
  | referral
  deriving Repr, DecidableEq

/-- Modelled from the spec: the iterator budget check (iterator/iterator.c
is not among the sources). A CNAME restart increments
query_restart_count, a referral increments referral_count; a query that
would exceed MAX_RESTART_COUNT or MAX_REFERRAL_COUNT is immediately
terminated with SERVFAIL, the counter not advancing further. A terminated
query ignores further events. -/
def iter_budget_step (s : IterCounters) (e : IterBudgetEvent) : IterCounters :=
  match s.error_rcode with
  | some _ => s
  | none =>
    match e with
    | IterBudgetEvent.restart =>
      if MAX_RESTART_COUNT ≤ s.query_restart_count then
        { s with error_rcode := some LDNS_RCODE_SERVFAIL }
      else { s with query_restart_count := s.query_restart_count + 1 }
    | IterBudgetEvent.referral =>
      if MAX_REFERRAL_COUNT ≤ s.referral_count then
        { s with error_rcode := some LDNS_RCODE_SERVFAIL }
      else { s with referral_count := s.referral_count + 1 }

/-- Run the iterator budget counters over a whole event history. -/
def iter_budget_run (es : List IterBudgetEvent) : IterCounters :=
  es.foldl iter_budget_step iter_counters_init

/-- Total outbound queries of a query lifetime, decomposed as per the spec
into restart rounds, each holding referral phases, each phase counting the
outbound queries emitted at that delegation point. -/
def query_outbound_total (w : List (List Nat)) : Nat :=
  (w.map (fun r => r.sum)).sum

/-- Modelled from the spec: the shape of one query lifetime
(iterator/iterator.c is not among the sources). A lifetime has at most
MAX_RESTART_COUNT restart rounds; each round follows at most
MAX_REFERRAL_COUNT referrals; at each delegation point at most
dp_targets * OUTBOUND_MSG_RETRY outbound queries are emitted. -/
def query_work_wf (dp_targets : Nat) (w : List (List Nat)) : Prop :=
  w.length ≤ MAX_RESTART_COUNT ∧
  ∀ r ∈ w, r.length ≤ MAX_REFERRAL_COUNT ∧
    ∀ n ∈ r, n ≤ dp_targets * OUTBOUND_MSG_RETRY

/-- DNSSEC security status of a reply. -/
inductive SecStatus where
  | indeterminate
  | insecure
  | bogus
  | secure
  deriving Repr, DecidableEq

/-- What the validator FINISHED state produces: the status surfaced to the
client, whether the client gets SERVFAIL, and what is cached with which
TTL. -/
structure ValFinishResult where
  surfaced : SecStatus
  servfail : Bool
  cache_security : SecStatus
  cache_ttl : Nat
  deriving Repr, DecidableEq

/-- Modelled from the spec: the validator FINISHED state
(validator/validator.c is not among the sources), following the
val_env.permissive_mode documentation in validator/validator.h: if set, the
validator does not make messages bogus, instead indeterminate is issued so
that no clients receive SERVFAIL; bogus data is cached with bogus_ttl and
is never cached as secure. -/
def val_finished (permissive_mode : Bool) (bogus_ttl : Nat)
    (sec : SecStatus) (data_ttl : Nat) : ValFinishResult :=
  match sec with
  | SecStatus.bogus =>
    { surfaced := if permissive_mode then SecStatus.indeterminate
        else SecStatus.bogus,
      servfail := !permissive_mode,
      cache_security := SecStatus.bogus,
      cache_ttl := bogus_ttl }
  | s =>
    { surfaced := s, servfail := false, cache_security := s,
      cache_ttl := data_ttl }

/-- Leading decimal digits of a char list, accumulator style (strtol
core used by C atoi). -/
def atoi_digits : List Char → Nat → Nat
  | [], acc => acc
  | c :: cs, acc =>
    if c.isDigit then atoi_digits cs (acc * 10 + (c.toNat - 48)) else acc

/-- Skip leading C whitespace, as atoi does. -/
def skip_space : List Char → List Char
  | [] => []
  | c :: cs =>
    if c = ' ' ∨ c = '\t' ∨ c = '\n' ∨ c = '\r' then skip_space cs else c :: cs

/-- C `atoi`: optional whitespace, optional sign, leading digits; 0 when no
digits are present. -/
def atoi (s : String) : Int :=
  match skip_space s.data with
  | '-' :: cs => - (atoi_digits cs 0 : Int)
  | '+' :: cs => (atoi_digits cs 0 : Int)
  | cs => (atoi_digits cs 0 : Int)

/-- The configuration fields touched by the embedded parser actions
(struct config_file). -/
structure Config where
  host_ttl : Int
  infra_cache_numhosts : Int
  bogus_ttl : Int
  val_permissive_mode : Bool
  deriving Repr, DecidableEq

/-- The parser state an action sees: the configuration being built, the
parse errors raised so far (yyerror) and the log lines emitted so far
(verbose). -/
structure ParseState where
  cfg : Config
  errors : List String
  logs : List String
  deriving Repr, DecidableEq

/-- yyerror: record a parse error. -/
def yyerror (st : ParseState) (msg : String) : ParseState :=
  { st with errors := st.errors ++ [msg] }

/-- verbose: emit a log line; the configuration is untouched. -/
def verbose_log (st : ParseState) (msg : String) : ParseState :=
  { st with logs := st.logs ++ [msg] }

/-- From util/configparser.c case 189 (server_infra_host_ttl): number
expected, else cfg->host_ttl is set. -/
def server_infra_host_ttl (st : ParseState) (s : String) : ParseState :=
  if atoi s = 0 ∧ s ≠ ("0") then yyerror st ("number expected")
  else { st with cfg := { st.cfg with host_ttl := atoi s } }

/-- From util/configparser.c case 190 (server_infra_lame_ttl): the option
is ignored; only a log message is emitted, no parse error is raised and
the configuration is untouched. -/
def server_infra_lame_ttl (st : ParseState) (s : String) : ParseState :=
  verbose_log st ("ignored infra-lame-ttl: " ++ s ++
    " (option removed, use infra-host-ttl)")

/-- From util/configparser.c case 191 (server_infra_cache_numhosts). -/
def server_infra_cache_numhosts (st : ParseState) (s : String) : ParseState :=
  if atoi s = 0 then yyerror st ("number expected")
  else { st with cfg := { st.cfg with infra_cache_numhosts := atoi s } }

/-- From util/configparser.c case 192 (server_infra_cache_lame_size): the
option is ignored; only a log message is emitted, no parse error is raised
and the configuration is untouched. -/
def server_infra_cache_lame_size (st : ParseState) (s : String) : ParseState :=
  verbose_log st ("ignored infra-cache-lame-size: " ++ s ++
    " (option removed, use infra-cache-numhosts)")

/-- From util/configparser.c case 218 (server_val_permissive_mode): yes or
no expected, else cfg->val_permissive_mode is set. -/
def server_val_permissive_mode (st : ParseState) (s : String) : ParseState :=
  if s ≠ ("yes") ∧ s ≠ ("no") then yyerror st ("expected yes or no.")
  else { st with cfg := { st.cfg with val_permissive_mode := s == ("yes") } }

/-- Sum bound for a list with bounded length and bounded elements. -/
theorem sum_le_mul_of_len_le (l : List Nat) (n b : Nat) (hlen : l.length ≤ n)
    (hb : ∀ x ∈ l, x ≤ b) : l.sum ≤ n * b := by
  induction l generalizing n with
  | nil => simp
  | cons x xs ih =>
    cases n with
    | zero => simp at hlen
    | succ m =>
      simp only [List.sum_cons]
      have hxs : xs.sum ≤ m * b := by
        refine ih m (by simpa using hlen) ?_
        intro y hy
        exact hb y (List.mem_cons_of_mem _ hy)
      have hx : x ≤ b := hb x (List.mem_cons_self _ _)
      calc x + xs.sum ≤ b + m * b := Nat.add_le_add hx hxs
        _ = (m + 1) * b := by ring

/-- C6: for every query lifetime within the spec budgets (at most
MAX_RESTART_COUNT restart rounds, each with at most MAX_REFERRAL_COUNT
referral phases, each phase emitting at most dp_targets *
OUTBOUND_MSG_RETRY outbound queries), the total number of outbound
queries is at most 8 * 30 * dp_targets * 4. -/
theorem query_outbound_total_bounded (dp_targets : Nat) (w : List (List Nat))
    (h : query_work_wf dp_targets w) :
    query_outbound_total w ≤
      MAX_RESTART_COUNT * MAX_REFERRAL_COUNT * dp_targets *
        OUTBOUND_MSG_RETRY := by
  obtain ⟨hlen, hr⟩ := h
  have hmain : query_outbound_total w ≤
      MAX_RESTART_COUNT * (MAX_REFERRAL_COUNT *
        (dp_targets * OUTBOUND_MSG_RETRY)) := by
    unfold query_outbound_total
    refine sum_le_mul_of_len_le _ _ _ (by simpa using hlen) ?_
    intro x hx
    obtain ⟨r, hrmem, hrx⟩ := List.mem_map.mp hx
    obtain ⟨hrlen, hre⟩ := hr r hrmem
    subst hrx
    exact sum_le_mul_of_len_le _ _ _ hrlen hre
  calc query_outbound_total w
      ≤ MAX_RESTART_COUNT * (MAX_REFERRAL_COUNT *
          (dp_targets * OUTBOUND_MSG_RETRY)) := hmain
    _ = MAX_RESTART_COUNT * MAX_REFERRAL_COUNT * dp_targets *
          OUTBOUND_MSG_RETRY := by ring

/-- C6 witness: a concrete lifetime with two restart rounds at a
delegation point of 2 targets stays within the budget. -/
theorem query_outbound_total_bounded_witness :
    query_work_wf 2 [[8, 3], [5]] ∧
    query_outbound_total [[8, 3], [5]] ≤
      MAX_RESTART_COUNT * MAX_REFERRAL_COUNT * 2 * OUTBOUND_MSG_RETRY :=
  ⟨by unfold query_work_wf MAX_RESTART_COUNT MAX_REFERRAL_COUNT OUTBOUND_MSG_RETRY; decide,
    query_outbound_total_bounded 2 [[8, 3], [5]]
      (by unfold query_work_wf MAX_RESTART_COUNT MAX_REFERRAL_COUNT OUTBOUND_MSG_RETRY; decide)⟩

/-- C7: with permissive_mode set, a reply whose validation yields bogus is
surfaced to the client as indeterminate, the client does not receive
SERVFAIL, and the reply is cached with security status bogus (for
bogus_ttl), never as secure. -/
theorem val_permissive_downgrade (bogus_ttl data_ttl : Nat) :
    (val_finished true bogus_ttl SecStatus.bogus data_ttl).surfaced =
      SecStatus.indeterminate ∧
    (val_finished true bogus_ttl SecStatus.bogus data_ttl).servfail = false ∧
    (val_finished true bogus_ttl SecStatus.bogus data_ttl).cache_security =
      SecStatus.bogus ∧
    (val_finished true bogus_ttl SecStatus.bogus data_ttl).cache_security ≠
      SecStatus.secure ∧
    (val_finished true bogus_ttl SecStatus.bogus data_ttl).cache_ttl =
      bogus_ttl := by
  refine ⟨rfl, rfl, rfl, ?_, rfl⟩
  intro hcon
  exact SecStatus.noConfusion hcon

/-- C8: parsing a value for infra-lame-ttl or infra-cache-lame-size leaves
every field of the configuration unchanged and raises no parse error for
every value string; only a log message is emitted. -/
theorem infra_lame_options_ignored (st : ParseState) (s : String) :
    (server_infra_lame_ttl st s).cfg = st.cfg ∧
    (server_infra_lame_ttl st s).errors = st.errors ∧
    (server_infra_lame_ttl st s).logs = st.logs ++
      [("ignored infra-lame-ttl: " ++ s ++
        " (option removed, use infra-host-ttl)")] ∧
    (server_infra_cache_lame_size st s).cfg = st.cfg ∧
    (server_infra_cache_lame_size st s).errors = st.errors ∧
    (server_infra_cache_lame_size st s).logs = st.logs ++
      [("ignored infra-cache-lame-size: " ++ s ++
        " (option removed, use infra-cache-numhosts)")] :=
  ⟨rfl, rfl, rfl, rfl, rfl, rfl⟩

/-- One step of the iterator budget check keeps both counters within their
limits and can only set SERVFAIL as error. -/
theorem iter_budget_step_preserves (s : IterCounters) (e : IterBudgetEvent)
    (h1 : s.query_restart_count ≤ MAX_RESTART_COUNT)
    (h2 : s.referral_count ≤ MAX_REFERRAL_COUNT)
    (h3 : s.error_rcode = none ∨ s.error_rcode = some LDNS_RCODE_SERVFAIL) :
    (iter_budget_step s e).query_restart_count ≤ MAX_RESTART_COUNT ∧
    (iter_budget_step s e).referral_count ≤ MAX_REFERRAL_COUNT ∧
    ((iter_budget_step s e).error_rcode = none ∨
      (iter_budget_step s e).error_rcode = some LDNS_RCODE_SERVFAIL) := by
  cases hr : s.error_rcode with
  | some r =>
    have hs : iter_budget_step s e = s := by
      unfold iter_budget_step
      rw [hr]
    rw [hs]
    exact ⟨h1, h2, h3⟩
  | none =>
    cases e with
    | restart =>
      unfold iter_budget_step
      rw [hr]
      by_cases hc : MAX_RESTART_COUNT ≤ s.query_restart_count
      · rw [if_pos hc]
        exact ⟨h1, h2, Or.inr rfl⟩
      · rw [if_neg hc]
        refine ⟨?_, h2, Or.inl rfl⟩
        simp only []
        unfold MAX_RESTART_COUNT at *
        omega
    | referral =>
      unfold iter_budget_step
      rw [hr]
      by_cases hc : MAX_REFERRAL_COUNT ≤ s.referral_count
      · rw [if_pos hc]
        exact ⟨h1, h2, Or.inr rfl⟩
      · rw [if_neg hc]
        refine ⟨h1, ?_, Or.inl rfl⟩
        simp only []
        unfold MAX_REFERRAL_COUNT at *
        omega

/-- Budget invariant over a whole fold of events. -/
theorem iter_budget_foldl_preserves (l : List IterBudgetEvent)
    (s : IterCounters)
    (h1 : s.query_restart_count ≤ MAX_RESTART_COUNT)
    (h2 : s.referral_count ≤ MAX_REFERRAL_COUNT)
    (h3 : s.error_rcode = none ∨ s.error_rcode = some LDNS_RCODE_SERVFAIL) :
    (l.foldl iter_budget_step s).query_restart_count ≤ MAX_RESTART_COUNT ∧
    (l.foldl iter_budget_step s).referral_count ≤ MAX_REFERRAL_COUNT ∧
    ((l.foldl iter_budget_step s).error_rcode = none ∨
      (l.foldl iter_budget_step s).error_rcode =
        some LDNS_RCODE_SERVFAIL) := by
  induction l generalizing s with
  | nil => exact ⟨h1, h2, h3⟩
  | cons e rest ih =>
    simp only [List.foldl_cons]
    obtain ⟨p1, p2, p3⟩ := iter_budget_step_preserves s e h1 h2 h3
    exact ih (iter_budget_step s e) p1 p2 p3

/-- C2: over every event history the restart count never exceeds
MAX_RESTART_COUNT (8) and the referral count never exceeds
MAX_REFERRAL_COUNT (30); the only terminal error the budget check
produces is SERVFAIL, and an event that would exceed a limit turns the
query into a SERVFAIL termination at once (shown on both limits). -/
theorem iter_budget_within_limits (es : List IterBudgetEvent) :
    (iter_budget_run es).query_restart_count ≤ MAX_RESTART_COUNT ∧
    (iter_budget_run es).referral_count ≤ MAX_REFERRAL_COUNT ∧
    ((iter_budget_run es).error_rcode = none ∨
      (iter_budget_run es).error_rcode = some LDNS_RCODE_SERVFAIL) ∧
    iter_budget_step ⟨MAX_RESTART_COUNT, 0, none⟩ IterBudgetEvent.restart =
      ⟨MAX_RESTART_COUNT, 0, some LDNS_RCODE_SERVFAIL⟩ ∧
    iter_budget_step ⟨0, MAX_REFERRAL_COUNT, none⟩ IterBudgetEvent.referral =
      ⟨0, MAX_REFERRAL_COUNT, some LDNS_RCODE_SERVFAIL⟩ := by
  obtain ⟨p1, p2, p3⟩ := iter_budget_foldl_preserves es iter_counters_init
    (by simp [iter_counters_init]) (by simp [iter_counters_init])
    (Or.inl rfl)
  exact ⟨p1, p2, p3, rfl, rfl⟩

/-- copy_rrset makes the overall TTL relative via uint32 subtraction. -/
theorem copy_rrset_ttl (key : UbPackedRrsetKey) (now : Nat) :
    (copy_rrset key now).data.ttl = sub32 key.data.ttl now := rfl

/-- copy_rrset makes every per-RR and per-RRSIG TTL relative. -/
theorem copy_rrset_rr_ttl (key : UbPackedRrsetKey) (now : Nat) :
    (copy_rrset key now).data.rr_ttl =
      ((key.data.rr_ttl.take (key.data.count + key.data.rrsig_count)).map
        (fun t => sub32 t now)) ++
      key.data.rr_ttl.drop (key.data.count + key.data.rrsig_count) := rfl

/-- A sample size function for the message cache. -/
def sample_msz : QueryInfo → ReplyInfo → Nat := fun _ r => 1 + r.rrsets.length

/-- A sample rrset. -/
def sample_rrset : UbPackedRrsetKey := ⟨[[119]], 1, 1, 0, 7, ⟨1, 0, 5, [5], 3⟩⟩

/-- A sample query. -/
def sample_qinfo : QueryInfo := ⟨[[119]], 1, 1⟩

/-- A sample reply whose overall (relative) TTL is 0. -/
def sample_rep0 : ReplyInfo := ⟨0, 1, 0, 1, 0, 0, [sample_rrset]⟩

/-- A sample reply with nonzero TTL. -/
def sample_rep5 : ReplyInfo := ⟨0, 1, 5, 1, 0, 0, [sample_rrset]⟩

/-- A sample rrset with one RR TTL and one RRSIG TTL. -/
def sample_k : UbPackedRrsetKey := ⟨[[99]], 1, 1, 0, 2, ⟨1, 1, 60, [60, 30], 4⟩⟩

/-- A sample empty cache state with a 4-slab message cache. -/
def sample_state : DnsCacheState :=
  ⟨slabhash_create QueryInfo ReplyInfo 4 1000, []⟩

/-- C9: dns_cache_store_msg on a reply whose overall TTL equals 0 still
writes the referenced rrsets through to the rrset cache, but the message
cache is left unchanged by the call. -/
theorem store_msg_ttl0_skips_msg_cache (msz : QueryInfo → ReplyInfo → Nat)
    (st : DnsCacheState) (qinfo : QueryInfo) (hash : Nat) (rep : ReplyInfo)
    (now : Nat) (h : rep.ttl = 0) :
    (dns_cache_store_msg msz st qinfo hash rep now).msg_cache =
      st.msg_cache ∧
    (dns_cache_store_msg msz st qinfo hash rep now).rrset_cache =
      (store_rrsets st.rrset_cache (reply_info_set_ttls rep now).rrsets).1 := by
  unfold dns_cache_store_msg
  rw [if_pos h]
  exact ⟨rfl, rfl⟩

/-- C9 witness: a concrete TTL-0 store touches only the rrset cache. -/
theorem store_msg_ttl0_skips_msg_cache_witness :
    sample_rep0.ttl = 0 ∧
    (dns_cache_store_msg sample_msz sample_state sample_qinfo 3 sample_rep0
      5).msg_cache = sample_state.msg_cache ∧
    (dns_cache_store_msg sample_msz sample_state sample_qinfo 3 sample_rep0
      5).rrset_cache =
      (store_rrsets sample_state.rrset_cache
        (reply_info_set_ttls sample_rep0 5).rrsets).1 := by
  refine ⟨rfl, ?_⟩
  exact store_msg_ttl0_skips_msg_cache sample_msz sample_state sample_qinfo 3
    sample_rep0 5 rfl

/-- C5: TTLs are stored absolute and exported relative. A store with
nonzero TTL inserts the reply converted by reply_info_set_ttls (which adds
now to every TTL); and an rrset whose TTLs were made absolute at store
time t0 and that is copied out of the cache by copy_rrset at lookup time
t1 carries every TTL (overall, per-RR and per-RRSIG) decremented to
orig + t0 - t1, i.e. relative to the lookup time. -/
theorem ttl_absolute_in_relative_out (msz : QueryInfo → ReplyInfo → Nat)
    (st : DnsCacheState) (qinfo : QueryInfo) (hash : Nat) (rep : ReplyInfo)
    (now : Nat) (k : UbPackedRrsetKey) (t0 t1 : Nat)
    (hrep : rep.ttl ≠ 0)
    (hlen : k.data.rr_ttl.length = k.data.count + k.data.rrsig_count)
    (httl : k.data.ttl + t0 < UINT32_MOD)
    (hrr : ∀ t ∈ k.data.rr_ttl, t + t0 < UINT32_MOD)
    (h1ttl : t1 ≤ k.data.ttl + t0)
    (h1rr : ∀ t ∈ k.data.rr_ttl, t1 ≤ t + t0) :
    (dns_cache_store_msg msz st qinfo hash rep now).msg_cache =
      (slabhash_insert msz st.msg_cache hash qinfo
        { reply_info_set_ttls rep now with
          rrsets := (store_rrsets st.rrset_cache
            (reply_info_set_ttls rep now).rrsets).2 }).1 ∧
    (copy_rrset (set_ttls_rrset t0 k) t1).data.ttl =
      k.data.ttl + t0 - t1 ∧
    (copy_rrset (set_ttls_rrset t0 k) t1).data.rr_ttl =
      k.data.rr_ttl.map (fun t => t + t0 - t1) := by
  refine ⟨?_, ?_, ?_⟩
  · unfold dns_cache_store_msg
    rw [if_neg hrep]
  · rw [copy_rrset_ttl]
    have hset : (set_ttls_rrset t0 k).data.ttl = add32 k.data.ttl t0 := rfl
    rw [hset, add32_eq _ _ httl, sub32_eq _ _ h1ttl httl]
  · rw [copy_rrset_rr_ttl]
    have hrrl : (set_ttls_rrset t0 k).data.rr_ttl =
        k.data.rr_ttl.map (fun t => add32 t t0) := rfl
    have hcnt : (set_ttls_rrset t0 k).data.count = k.data.count := rfl
    have hsig : (set_ttls_rrset t0 k).data.rrsig_count = k.data.rrsig_count :=
      rfl
    rw [hrrl, hcnt, hsig]
    have hlen2 : (k.data.rr_ttl.map (fun t => add32 t t0)).length ≤
        k.data.count + k.data.rrsig_count := by
      rw [List.length_map, hlen]
    rw [List.take_of_length_le hlen2, List.drop_eq_nil_of_le hlen2,
      List.append_nil, List.map_map]
    apply List.map_congr_left
    intro t ht
    simp only [Function.comp_apply]
    rw [add32_eq t t0 (hrr t ht), sub32_eq (t + t0) t1 (h1rr t ht) (hrr t ht)]

/-- C5 witness: a concrete rrset stored at time 100 and exported at time
120 comes out with all TTLs decremented by the 20 elapsed seconds; a
concrete nonzero-TTL store inserts the absolute-TTL reply. -/
theorem ttl_absolute_in_relative_out_witness :
    (dns_cache_store_msg sample_msz sample_state sample_qinfo 3 sample_rep5
      7).msg_cache =
      (slabhash_insert sample_msz sample_state.msg_cache 3 sample_qinfo
        { reply_info_set_ttls sample_rep5 7 with
          rrsets := (store_rrsets sample_state.rrset_cache
            (reply_info_set_ttls sample_rep5 7).rrsets).2 }).1 ∧
    (copy_rrset (set_ttls_rrset 100 sample_k) 120).data.ttl =
      sample_k.data.ttl + 100 - 120 ∧
    (copy_rrset (set_ttls_rrset 100 sample_k) 120).data.rr_ttl =
      sample_k.data.rr_ttl.map (fun t => t + 100 - 120) :=
  ttl_absolute_in_relative_out sample_msz sample_state sample_qinfo 3
    sample_rep5 7 sample_k 100 120 (by decide) rfl (by decide) (by decide)
    (by decide) (by decide)

/-- tomsg refuses an entry whose absolute TTL is strictly in the past. -/
theorem tomsg_expired (rc : RrsetCache) (q : QueryInfo) (r : ReplyInfo)
    (now : Nat) (h : r.ttl < now) : tomsg rc q r now = none := by
  unfold tomsg
  rw [if_pos h]

/-- An entry returned by slabhash_lookup is an entry of some slab. -/
theorem slabhash_lookup_mem {K D : Type} [DecidableEq K] (sh : Slabhash K D)
    (h : Nat) (k : K) (e : K × D) (he : slabhash_lookup sh h k = some e) :
    ∃ t ∈ sh.tables, e ∈ t.entries := by
  unfold slabhash_lookup at he
  rcases hg : sh.tables.get? (slab_idx sh.shift h) with _ | t
  · rw [show sh.tables.getD (slab_idx sh.shift h) ⟨[]⟩ =
      (sh.tables.get? (slab_idx sh.shift h)).getD ⟨[]⟩ by simp [List.getD]]
      at he
    rw [hg] at he
    simp at he
  · rw [show sh.tables.getD (slab_idx sh.shift h) ⟨[]⟩ =
      (sh.tables.get? (slab_idx sh.shift h)).getD ⟨[]⟩ by simp [List.getD]]
      at he
    rw [hg] at he
    exact ⟨t, List.get?_mem hg, List.mem_of_find?_eq_some he⟩

/-- C1 (amended): a cached reply whose absolute TTL t satisfies t < now is
treated as absent: when every message cache entry is strictly expired,
dns_cache_lookup builds no message and returns none, as on a miss. -/
theorem lookup_all_expired_is_miss (qh : QueryInfo → Nat) (mc : MsgCache)
    (rc : RrsetCache) (qname : Dname) (qtype qclass now : Nat)
    (hexp : ∀ t ∈ mc.tables, ∀ e ∈ t.entries, (e.2 : ReplyInfo).ttl < now) :
    dns_cache_lookup qh mc rc qname qtype qclass now = none := by
  have hcname : dns_cache_lookup_cname qh mc rc qname qclass now = none := by
    unfold dns_cache_lookup_cname
    rcases hl : slabhash_lookup mc (qh ⟨qname, LDNS_RR_TYPE_CNAME, qclass⟩)
        ⟨qname, LDNS_RR_TYPE_CNAME, qclass⟩ with _ | e
    · rfl
    · obtain ⟨t, ht, hmem⟩ := slabhash_lookup_mem _ _ _ _ hl
      exact tomsg_expired rc e.1 e.2 now (hexp t ht e hmem)
  unfold dns_cache_lookup
  rcases hl : slabhash_lookup mc (qh ⟨qname, qtype, qclass⟩)
      ⟨qname, qtype, qclass⟩ with _ | e
  · exact hcname
  · obtain ⟨t, ht, hmem⟩ := slabhash_lookup_mem _ _ _ _ hl
    show (match tomsg rc e.1 e.2 now with
      | some msg => some msg
      | none => dns_cache_lookup_cname qh mc rc qname qclass now) = none
    rw [tomsg_expired rc e.1 e.2 now (hexp t ht e hmem)]
    exact hcname

/-- A counterexample rrset, unexpired at time 5. -/
def cex_rrset : UbPackedRrsetKey := ⟨[[97]], 1, 1, 0, 3, ⟨1, 0, 5, [5], 2⟩⟩

/-- A counterexample query key. -/
def cex_q : QueryInfo := ⟨[[97]], 1, 1⟩

/-- A counterexample cached reply whose absolute TTL is exactly 5. -/
def cex_rep : ReplyInfo := ⟨0, 1, 5, 1, 0, 0, [cex_rrset]⟩

/-- A one-slab message cache holding only the counterexample entry. -/
def cex_mc : MsgCache := ⟨1, 32, 1000, [⟨[(cex_q, cex_rep)]⟩]⟩

/-- The rrset cache backing the counterexample entry. -/
def cex_rc : RrsetCache := [cex_rrset]

/-- C1 counterexample: at now = 5 the only cached reply has absolute TTL
t = 5, so t ≤ now; yet dns_cache_lookup does not treat it as absent: the
CNAME fallback finds nothing, and the lookup still returns a message
built from that entry (the code drops an entry only when now > t). -/
theorem lookup_ttl_eq_now_not_absent :
    cex_rep.ttl = 5 ∧
    dns_cache_lookup_cname (fun _ => 0) cex_mc cex_rc [[97]] 1 5 = none ∧
    (dns_cache_lookup (fun _ => 0) cex_mc cex_rc [[97]] 1 1 5).isSome =
      true :=
  ⟨rfl, rfl, rfl⟩

/-- An expired reply (absolute TTL 3). -/
def exp_rep : ReplyInfo := ⟨0, 1, 3, 1, 0, 0, []⟩

/-- A one-slab message cache holding only the expired entry. -/
def exp_mc : MsgCache := ⟨1, 32, 1000, [⟨[(cex_q, exp_rep)]⟩]⟩

/-- C1 witness: at now = 9 every entry of the concrete cache is strictly
expired and the lookup misses. -/
theorem lookup_all_expired_is_miss_witness :
    (∀ t ∈ exp_mc.tables, ∀ e ∈ t.entries, (e.2 : ReplyInfo).ttl < 9) ∧
    dns_cache_lookup (fun _ => 0) exp_mc [] [[97]] 1 1 9 = none :=
  ⟨by decide,
    lookup_all_expired_is_miss (fun _ => 0) exp_mc [] [[97]] 1 1 9
      (by decide)⟩

/-- C10: whenever the entry for (qname, qtype, qclass) is missing, expired
or fails to convert to a message, dns_cache_lookup performs a second
message cache lookup for (qname, CNAME, qclass): it returns that cached
CNAME reply when tomsg converts it successfully, and it returns none
exactly when the CNAME lookup fails too. -/
theorem lookup_cname_fallback (qh : QueryInfo → Nat) (mc : MsgCache)
    (rc : RrsetCache) (qname : Dname) (qtype qclass now : Nat)
    (hfirst : ∀ e, slabhash_lookup mc (qh ⟨qname, qtype, qclass⟩)
      ⟨qname, qtype, qclass⟩ = some e → tomsg rc e.1 e.2 now = none) :
    (∀ e m, slabhash_lookup mc (qh ⟨qname, LDNS_RR_TYPE_CNAME, qclass⟩)
        ⟨qname, LDNS_RR_TYPE_CNAME, qclass⟩ = some e →
      tomsg rc e.1 e.2 now = some m →
      dns_cache_lookup qh mc rc qname qtype qclass now = some m) ∧
    (dns_cache_lookup qh mc rc qname qtype qclass now = none ↔
      (∀ e, slabhash_lookup mc (qh ⟨qname, LDNS_RR_TYPE_CNAME, qclass⟩)
          ⟨qname, LDNS_RR_TYPE_CNAME, qclass⟩ = some e →
        tomsg rc e.1 e.2 now = none)) := by
  have hcn : dns_cache_lookup_cname qh mc rc qname qclass now =
      (slabhash_lookup mc (qh ⟨qname, LDNS_RR_TYPE_CNAME, qclass⟩)
        ⟨qname, LDNS_RR_TYPE_CNAME, qclass⟩).bind
          (fun e => tomsg rc e.1 e.2 now) := by
    unfold dns_cache_lookup_cname
    rcases slabhash_lookup mc (qh ⟨qname, LDNS_RR_TYPE_CNAME, qclass⟩)
        ⟨qname, LDNS_RR_TYPE_CNAME, qclass⟩ with _ | e
    · rfl
    · rfl
  have hmain : dns_cache_lookup qh mc rc qname qtype qclass now =
      dns_cache_lookup_cname qh mc rc qname qclass now := by
    unfold dns_cache_lookup
    rcases hl : slabhash_lookup mc (qh ⟨qname, qtype, qclass⟩)
        ⟨qname, qtype, qclass⟩ with _ | e
    · rfl
    · show (match tomsg rc e.1 e.2 now with
        | some msg => some msg
        | none => dns_cache_lookup_cname qh mc rc qname qclass now) =
          dns_cache_lookup_cname qh mc rc qname qclass now
      rw [hfirst e hl]
  constructor
  · intro e m he hm
    rw [hmain, hcn, he]
    exact hm
  · rw [hmain, hcn]
    constructor
    · intro hnone e he
      rw [he] at hnone
      exact hnone
    · intro hall
      rcases hl : slabhash_lookup mc (qh ⟨qname, LDNS_RR_TYPE_CNAME, qclass⟩)
          ⟨qname, LDNS_RR_TYPE_CNAME, qclass⟩ with _ | e
      · rfl
      · exact hall e hl

/-- A cached CNAME entry key for the fallback witness. -/
def cn_q : QueryInfo := ⟨[[97]], 5, 1⟩

/-- The cached CNAME reply for the fallback witness, unexpired at 5. -/
def cn_rep : ReplyInfo := ⟨0, 1, 9, 1, 0, 0, []⟩

/-- A one-slab message cache holding only the CNAME entry. -/
def cn_mc : MsgCache := ⟨1, 32, 1000, [⟨[(cn_q, cn_rep)]⟩]⟩

/-- C10 witness: the type-A entry is absent, so the concrete lookup
returns the converted cached CNAME reply. -/
theorem lookup_cname_fallback_witness :
    dns_cache_lookup (fun _ => 0) cn_mc [] [[97]] 1 1 5 =
      some ⟨cn_q, { cn_rep with rrsets := [] }⟩ := by
  refine (lookup_cname_fallback (fun _ => 0) cn_mc [] [[97]] 1 1 5 ?_).1
    (cn_q, cn_rep) ⟨cn_q, { cn_rep with rrsets := [] }⟩ rfl rfl
  intro e he
  rw [show slabhash_lookup cn_mc ((fun _ => (0 : Nat))
      (⟨[[97]], 1, 1⟩ : QueryInfo)) ⟨[[97]], 1, 1⟩ = none from rfl] at he
  exact Option.noConfusion he

/-- The eviction loop only ever keeps a front segment of the LRU list. -/
theorem evict_steps_eq_take {K D : Type} (szf : K → D → Nat) (budget : Nat) :
    ∀ (n : Nat) (l : List (K × D)), ∃ m, evict_steps szf budget n l = l.take m := by
  intro n
  induction n with
  | zero =>
    intro l
    refine ⟨l.length, ?_⟩
    show l = l.take l.length
    simp
  | succ j ih =>
    intro l
    unfold evict_steps
    by_cases hc : lru_space szf l ≤ budget
    · rw [if_pos hc]
      refine ⟨l.length, ?_⟩
      simp
    · rw [if_neg hc]
      obtain ⟨m, hm⟩ := ih l.dropLast
      refine ⟨min m (l.length - 1), ?_⟩
      rw [hm, List.dropLast_eq_take, List.take_take]

/-- After the eviction loop runs with enough fuel, the slab is within its
budget. -/
theorem evict_steps_space {K D : Type} (szf : K → D → Nat) (budget : Nat) :
    ∀ (n : Nat) (l : List (K × D)), l.length ≤ n →
      lru_space szf (evict_steps szf budget n l) ≤ budget := by
  intro n
  induction n with
  | zero =>
    intro l hl
    have hnil : l = [] := List.length_eq_zero.mp (Nat.le_zero.mp hl)
    subst hnil
    simp [evict_steps, lru_space]
  | succ j ih =>
    intro l hl
    unfold evict_steps
    by_cases hc : lru_space szf l ≤ budget
    · rw [if_pos hc]
      exact hc
    · rw [if_neg hc]
      apply ih
      have hdl := List.length_dropLast l
      omega

/-- Setting the selected slab and reading it back. -/
theorem tables_set_getD {K D : Type} (ls : List (Lruhash K D)) (i : Nat)
    (a : Lruhash K D) (h : i < ls.length) : (ls.set i a).getD i ⟨[]⟩ = a := by
  simp [List.getD]
  rw [List.getElem?_set_self]
  · rfl
  · simpa using h

/-- C4: slabhash_insert operates on the slab selected by the top bits of
the hash, leaving every other slab untouched. If an entry with an equal
key is present in that slab, its data is swapped for the new data (keys
and their order are unchanged) and the old data is freed; otherwise the
new entry is prepended as most recently used and entries are evicted from
the tail of that slab LRU (the surviving entries are a front segment, the
evicted data is the freed tail) until the slab respects its own budget of
maxmem / numtables. -/
theorem slabhash_insert_spec {K D : Type} [DecidableEq K]
    (szf : K → D → Nat) (sh : Slabhash K D) (hash : Nat) (k : K) (d : D)
    (hlen : slab_idx sh.shift hash < sh.tables.length) :
    (∀ j, j ≠ slab_idx sh.shift hash →
      (slabhash_insert szf sh hash k d).1.tables.get? j =
        sh.tables.get? j) ∧
    (∀ e0, (sh.tables.getD (slab_idx sh.shift hash) ⟨[]⟩).entries.find?
        (fun e => decide (e.1 = k)) = some e0 →
      (slabhash_insert szf sh hash k d).2 = [e0.2] ∧
      ((slabhash_insert szf sh hash k d).1.tables.getD
          (slab_idx sh.shift hash) ⟨[]⟩).entries.map Prod.fst =
        (sh.tables.getD (slab_idx sh.shift hash) ⟨[]⟩).entries.map
          Prod.fst ∧
      (∀ x ∈ ((slabhash_insert szf sh hash k d).1.tables.getD
          (slab_idx sh.shift hash) ⟨[]⟩).entries, x.1 = k → x.2 = d) ∧
      (∀ x ∈ ((slabhash_insert szf sh hash k d).1.tables.getD
          (slab_idx sh.shift hash) ⟨[]⟩).entries, x.1 ≠ k →
        x ∈ (sh.tables.getD (slab_idx sh.shift hash) ⟨[]⟩).entries)) ∧
    ((sh.tables.getD (slab_idx sh.shift hash) ⟨[]⟩).entries.find?
        (fun e => decide (e.1 = k)) = none →
      ∃ m,
        ((slabhash_insert szf sh hash k d).1.tables.getD
            (slab_idx sh.shift hash) ⟨[]⟩).entries =
          ((k, d) :: (sh.tables.getD (slab_idx sh.shift hash)
            ⟨[]⟩).entries).take m ∧
        lru_space szf ((slabhash_insert szf sh hash k d).1.tables.getD
            (slab_idx sh.shift hash) ⟨[]⟩).entries ≤
          sh.maxmem / sh.numtables ∧
        (slabhash_insert szf sh hash k d).2 =
          (((k, d) :: (sh.tables.getD (slab_idx sh.shift hash)
            ⟨[]⟩).entries).drop
            (((slabhash_insert szf sh hash k d).1.tables.getD
              (slab_idx sh.shift hash) ⟨[]⟩).entries.length)).map
            (fun e => e.2)) := by
  have hset : (slabhash_insert szf sh hash k d).1.tables =
      sh.tables.set (slab_idx sh.shift hash)
        (lruhash_insert szf (sh.maxmem / sh.numtables)
          (sh.tables.getD (slab_idx sh.shift hash) ⟨[]⟩) k d).1 := rfl
  have hfreed : (slabhash_insert szf sh hash k d).2 =
      (lruhash_insert szf (sh.maxmem / sh.numtables)
        (sh.tables.getD (slab_idx sh.shift hash) ⟨[]⟩) k d).2 := rfl
  have hread : (slabhash_insert szf sh hash k d).1.tables.getD
      (slab_idx sh.shift hash) ⟨[]⟩ =
      (lruhash_insert szf (sh.maxmem / sh.numtables)
        (sh.tables.getD (slab_idx sh.shift hash) ⟨[]⟩) k d).1 := by
    rw [hset]
    exact tables_set_getD _ _ _ hlen
  refine ⟨?_, ?_, ?_⟩
  · intro j hj
    rw [hset]
    simp only [List.get?_eq_getElem?]
    rw [List.getElem?_set_ne (Ne.symm hj)]
  · intro e0 hfind
    have hins : lruhash_insert szf (sh.maxmem / sh.numtables)
        (sh.tables.getD (slab_idx sh.shift hash) ⟨[]⟩) k d =
        (⟨(sh.tables.getD (slab_idx sh.shift hash) ⟨[]⟩).entries.map
          (fun x => if x.1 = k then (k, d) else x)⟩, [e0.2]) := by
      unfold lruhash_insert
      rw [hfind]
    refine ⟨?_, ?_, ?_, ?_⟩
    · rw [hfreed, hins]
    · rw [hread, hins]
      show ((sh.tables.getD (slab_idx sh.shift hash) ⟨[]⟩).entries.map
        (fun x => if x.1 = k then (k, d) else x)).map Prod.fst = _
      rw [List.map_map]
      apply List.map_congr_left
      intro x _
      simp only [Function.comp_apply]
      by_cases hx : x.1 = k
      · rw [if_pos hx]
        exact hx.symm
      · rw [if_neg hx]
    · intro x hx hxk
      rw [hread, hins] at hx
      obtain ⟨y, _, hyx⟩ := List.mem_map.mp hx
      by_cases hy : y.1 = k
      · rw [if_pos hy] at hyx
        rw [← hyx]
      · rw [if_neg hy] at hyx
        subst hyx
        exact absurd hxk hy
    · intro x hx hxk
      rw [hread, hins] at hx
      obtain ⟨y, hymem, hyx⟩ := List.mem_map.mp hx
      by_cases hy : y.1 = k
      · rw [if_pos hy] at hyx
        subst hyx
        exact absurd rfl hxk
      · rw [if_neg hy] at hyx
        subst hyx
        exact hymem
  · intro hfind
    have hins : lruhash_insert szf (sh.maxmem / sh.numtables)
        (sh.tables.getD (slab_idx sh.shift hash) ⟨[]⟩) k d =
        (⟨evict_tail szf (sh.maxmem / sh.numtables)
            ((k, d) :: (sh.tables.getD (slab_idx sh.shift hash)
              ⟨[]⟩).entries)⟩,
          (((k, d) :: (sh.tables.getD (slab_idx sh.shift hash)
            ⟨[]⟩).entries).drop
            (evict_tail szf (sh.maxmem / sh.numtables)
              ((k, d) :: (sh.tables.getD (slab_idx sh.shift hash)
                ⟨[]⟩).entries)).length).map (fun e => e.2)) := by
      unfold lruhash_insert
      rw [hfind]
    obtain ⟨m, hm⟩ := evict_steps_eq_take szf (sh.maxmem / sh.numtables)
      ((k, d) :: (sh.tables.getD (slab_idx sh.shift hash)
        ⟨[]⟩).entries).length
      ((k, d) :: (sh.tables.getD (slab_idx sh.shift hash) ⟨[]⟩).entries)
    refine ⟨m, ?_, ?_, ?_⟩
    · rw [hread, hins]
      exact hm
    · rw [hread, hins]
      exact evict_steps_space szf (sh.maxmem / sh.numtables) _ _ le_rfl
    · rw [hfreed, hins, hread, hins]

/-- A two-slab table over Nat keys and data: slab 0 holds two entries,
each of size 1 under the sample size function; maxmem 4 gives each slab a
budget of 2. -/
def w4_sh : Slabhash Nat Nat := ⟨2, 31, 4, [⟨[(1, 10), (2, 20)]⟩, ⟨[]⟩]⟩

/-- C4 witness: inserting a fresh key into the full slab 0 prepends it and
evicts the LRU tail entry, with the evicted data freed. -/
theorem slabhash_insert_spec_witness :
    ((w4_sh.tables.getD (slab_idx w4_sh.shift 0) ⟨[]⟩).entries.find?
      (fun e => decide (e.1 = 3)) = none) ∧
    (∃ m,
      ((slabhash_insert (fun _ _ => 1) w4_sh 0 3 30).1.tables.getD
          (slab_idx w4_sh.shift 0) ⟨[]⟩).entries =
        ((3, 30) :: (w4_sh.tables.getD (slab_idx w4_sh.shift 0)
          ⟨[]⟩).entries).take m ∧
      lru_space (fun _ _ => 1)
        ((slabhash_insert (fun _ _ => 1) w4_sh 0 3 30).1.tables.getD
          (slab_idx w4_sh.shift 0) ⟨[]⟩).entries ≤
        w4_sh.maxmem / w4_sh.numtables ∧
      (slabhash_insert (fun _ _ => 1) w4_sh 0 3 30).2 =
        (((3, 30) :: (w4_sh.tables.getD (slab_idx w4_sh.shift 0)
          ⟨[]⟩).entries).drop
          (((slabhash_insert (fun _ _ => 1) w4_sh 0 3 30).1.tables.getD
            (slab_idx w4_sh.shift 0) ⟨[]⟩).entries.length)).map
          (fun e => e.2)) :=
  ⟨rfl, (slabhash_insert_spec (fun _ _ => 1) w4_sh 0 3 30 (by decide)).2.2 rfl⟩

/-- What find_deleg_ns finds: walking the suffixes of the qname from the
longest down, the result is the first (longest) suffix carrying a cached
unexpired NS rrset, and its owner name is that suffix; when no suffix has
one, the walk yields none. -/
theorem find_deleg_ns_spec (rc : RrsetCache) (qclass now : Nat) :
    ∀ q : Dname,
      (∀ r, find_deleg_ns rc qclass now q = some r →
        ∃ i, r.dname = q.drop i ∧
          rrset_cache_lookup rc (q.drop i) LDNS_RR_TYPE_NS qclass 0 now =
            some r ∧
          ∀ j < i, rrset_cache_lookup rc (q.drop j) LDNS_RR_TYPE_NS qclass
            0 now = none) ∧
      (find_deleg_ns rc qclass now q = none →
        ∀ i, rrset_cache_lookup rc (q.drop i) LDNS_RR_TYPE_NS qclass 0 now =
          none) := by
  intro q
  induction q with
  | nil =>
    constructor
    · intro r hr
      refine ⟨0, ?_, ?_, ?_⟩
      · have hp := List.find?_some hr
        simp only [Bool.and_eq_true, decide_eq_true_eq] at hp
        exact hp.1.1.1.1
      · exact hr
      · intro j hj
        exact absurd hj (Nat.not_lt_zero j)
    · intro hnone i
      rw [List.drop_nil]
      exact hnone
  | cons l rest ih =>
    constructor
    · intro r hr
      unfold find_deleg_ns at hr
      rcases hl : rrset_cache_lookup rc (l :: rest) LDNS_RR_TYPE_NS qclass
          0 now with _ | r0
      · rw [hl] at hr
        obtain ⟨i, hdn, hfound, hmiss⟩ := ih.1 r hr
        refine ⟨i + 1, ?_, ?_, ?_⟩
        · simpa using hdn
        · simpa using hfound
        · intro j hj
          cases j with
          | zero => exact hl
          | succ j0 =>
            have hj0 : j0 < i := by omega
            simpa using hmiss j0 hj0
      · rw [hl] at hr
        have hr0 : r0 = r := Option.some.inj hr
        subst hr0
        refine ⟨0, ?_, ?_, ?_⟩
        · have hp := List.find?_some hl
          simp only [Bool.and_eq_true, decide_eq_true_eq] at hp
          exact hp.1.1.1.1
        · exact hl
        · intro j hj
          exact absurd hj (Nat.not_lt_zero j)
    · intro hnone i
      unfold find_deleg_ns at hnone
      rcases hl : rrset_cache_lookup rc (l :: rest) LDNS_RR_TYPE_NS qclass
          0 now with _ | r0
      · rw [hl] at hnone
        cases i with
        | zero => exact hl
        | succ i0 =>
          simpa using ih.2 hnone i0
      · rw [hl] at hnone
        exact Option.noConfusion hnone

/-- C3: whenever at least one suffix of the qname carries a cached,
unexpired NS rrset, dns_cache_find_delegation returns a delegation point
whose owner name is the longest such suffix (the closest enclosing cached
NS: every longer suffix has none); in particular the owner name is a
suffix of, i.e. an ancestor of or equal to, the chased qname. -/
theorem find_delegation_closest_ns (rc : RrsetCache) (qname : Dname)
    (qtype qclass now : Nat)
    (h : ∃ i, (rrset_cache_lookup rc (qname.drop i) LDNS_RR_TYPE_NS qclass
      0 now).isSome = true) :
    ∃ dp, dns_cache_find_delegation rc qname qtype qclass now = some dp ∧
      (∃ i, dp.name = qname.drop i ∧
        (rrset_cache_lookup rc (qname.drop i) LDNS_RR_TYPE_NS qclass 0
          now).isSome = true ∧
        ∀ j < i, rrset_cache_lookup rc (qname.drop j) LDNS_RR_TYPE_NS
          qclass 0 now = none) ∧
      dp.name <:+ qname := by
  rcases hfd : find_deleg_ns rc qclass now qname with _ | r
  · exfalso
    obtain ⟨i, hi⟩ := h
    rw [(find_deleg_ns_spec rc qclass now qname).2 hfd i] at hi
    simp at hi
  · obtain ⟨i, hdn, hfound, hmiss⟩ :=
      (find_deleg_ns_spec rc qclass now qname).1 r hfd
    have hsome : (rrset_cache_lookup rc (qname.drop i) LDNS_RR_TYPE_NS
        qclass 0 now).isSome = true := by
      rw [hfound]
      rfl
    refine ⟨⟨r.dname, r⟩, ?_, ⟨i, hdn, hsome, hmiss⟩, ?_⟩
    · unfold dns_cache_find_delegation
      rw [hfd]
    · show r.dname <:+ qname
      rw [hdn]
      exact List.drop_suffix i qname

/-- A cached NS rrset at the one-label name used by the C3 witness. -/
def c3_ns : UbPackedRrsetKey := ⟨[[111]], 2, 1, 0, 9, ⟨1, 0, 50, [50], 3⟩⟩

/-- The rrset cache for the C3 witness. -/
def c3_rc : RrsetCache := [c3_ns]

/-- C3 witness: for a two-label qname whose one-label parent has a cached
NS, the delegation point sits at the parent, a strict suffix. -/
theorem find_delegation_closest_ns_witness :
    (∃ i, (rrset_cache_lookup c3_rc (([[119], [111]] : Dname).drop i)
      LDNS_RR_TYPE_NS 1 0 20).isSome = true) ∧
    (∃ dp, dns_cache_find_delegation c3_rc [[119], [111]] 1 1 20 =
        some dp ∧
      (∃ i, dp.name = ([[119], [111]] : Dname).drop i ∧
        (rrset_cache_lookup c3_rc (([[119], [111]] : Dname).drop i)
          LDNS_RR_TYPE_NS 1 0 20).isSome = true ∧
        ∀ j < i, rrset_cache_lookup c3_rc (([[119], [111]] : Dname).drop j)
          LDNS_RR_TYPE_NS 1 0 20 = none) ∧
      dp.name <:+ [[119], [111]]) :=
  ⟨⟨1, rfl⟩,
    find_delegation_closest_ns c3_rc [[119], [111]] 1 1 20 ⟨1, rfl⟩⟩
